import Mathlib

/-!
Verification development for the Neby chat client.

The repository ships two snapshots of the application files.  We refer to the
earlier snapshot (the first document in App.tsx together with
services/geminiService.ts) as the V1 code, and to the later snapshot (the
second document in App.tsx together with the first document of
src/unnamed/part_002 and the firebase service in src/unnamed/part_003) as the
V2 code.  Definitions below carry a V1 suffix when they embed the earlier
snapshot; unsuffixed definitions embed the V2 snapshot.
-/

namespace Neby

/-- Whether the second character list starts the first one. -/
def startsWithChars : List Char → List Char → Bool
  | _, [] => true
  | [], _ :: _ => false
  | c :: cs, p :: ps => c == p && startsWithChars cs ps

/-- Whether the pattern occurs anywhere in the character list. -/
def includesChars (pat : List Char) : List Char → Bool
  | [] => startsWithChars [] pat
  | c :: cs => startsWithChars (c :: cs) pat || includesChars pat cs

/-- JS String.prototype.includes. -/
def jsIncludes (s pat : String) : Bool :=
  includesChars pat.toList s.toList

/-- Splitting a character list at every occurrence of a separator character. -/
def splitChars (sep : Char) : List Char → List (List Char)
  | [] => [[]]
  | c :: cs =>
      let r := splitChars sep cs
      if c == sep then [] :: r
      else
        match r with
        | h :: t => (c :: h) :: t
        | [] => [[c]]

/-- JS whitespace test for the characters String.prototype.trim strips. -/
def isSpaceChar (c : Char) : Bool :=
  c == ' ' || c == '\t' || c == '\n' || c == '\r'

/-- JS String.prototype.trim. -/
def jsTrim (s : String) : String :=
  String.mk (((s.toList.dropWhile isSpaceChar).reverse.dropWhile isSpaceChar).reverse)

/-- Message roles, from types.ts. -/
inductive Role where
  | user
  | model
  | system
deriving DecidableEq, Repr

/-- A grounding citation, from types.ts (the web and maps variants both reduce
to a uri plus title; the optional nesting is flattened here). -/
structure GroundingChunk where
  uri : String := ""
  title : String := ""
deriving DecidableEq, Repr

/-- A chat message, from types.ts.  The optional JS booleans are represented
as Bool with default false (undefined and false are indistinguishable to every
use site, which only tests truthiness).  The optional images array is a list
(undefined and the empty array are likewise indistinguishable). -/
structure Message where
  id : String
  role : Role
  content : String
  timestamp : Nat
  isLoading : Bool := false
  isPainting : Bool := false
  isDirecting : Bool := false
  images : List String := []
  videoUri : Option String := none
  groundingSources : List GroundingChunk := []
  audioBase64 : Option String := none
deriving DecidableEq, Repr

/-- A chat session, from types.ts. -/
structure ChatSession where
  id : String
  title : String
  messages : List Message
  createdAt : Nat
deriving DecidableEq, Repr

/-- Generation settings, from types.ts.  The temperature is only ever passed
through opaquely to the request, never inspected, so it is represented as a
Nat; the two image-sizing fields are likewise pass-through only and are not
needed by any claim, so they are omitted. -/
structure ChatConfig where
  model : String
  temperature : Nat := 0
  useSearch : Bool := false
  useThinking : Bool := false
  useMaps : Bool := false
  systemInstruction : String := ""
deriving DecidableEq, Repr

/-! ## GeminiService.streamChat: request shaping (part_002 lines 182-257) -/

/-- One part of an API content entry: either inline text or inline binary data
with a mime type. -/
inductive Part where
  | text (t : String)
  | inlineData (mimeType : String) (data : String)
deriving DecidableEq, Repr

/-- One entry of the contents array sent to the Gateway. -/
structure ApiContent where
  role : String
  parts : List Part
deriving DecidableEq, Repr

/-- The JS idiom img.split(",")[1] used to strip the data-URL header.  When no
comma is present JS yields undefined; the difference is immaterial to every
claim, so that corner is rendered as the empty string. -/
def dataOf (img : String) : String :=
  String.mk (((splitChars ',' img.toList).drop 1).headD [])

/-- Conversion of one internal Message to an API content entry
(part_002 lines 195-203). -/
def msgToContent (msg : Message) : ApiContent :=
  { role := if msg.role = Role.user then "user" else "model"
  , parts :=
      if msg.images.isEmpty then [Part.text msg.content]
      else msg.images.map (fun img => Part.inlineData "image/jpeg" (dataOf img))
             ++ [Part.text msg.content] }

/-- The chatHistory array: the input history with in-progress and system-role
messages filtered out, then mapped to API form (part_002 lines 193-203). -/
def chatHistoryOf (history : List Message) : List ApiContent :=
  (history.filter (fun msg => !msg.isLoading && !(msg.role == Role.system))).map msgToContent

/-- The currentParts array for the new turn: image attachments, then an
optional video attachment, then the new text (part_002 lines 205-232). -/
def currentPartsOf (newMessage : String) (images : List String)
    (videoData : Option String) : List Part :=
  images.map (fun img => Part.inlineData "image/jpeg" (dataOf img))
    ++ (match videoData with
        | some v => [Part.inlineData "video/mp4" (dataOf v)]
        | none => [])
    ++ [Part.text newMessage]

/-- Single-turn-only detection (part_002 line 250). -/
def isSingleTurnOnly (model : String) : Bool :=
  jsIncludes model "tts" || jsIncludes model "image"

/-- The contents array transmitted to the Gateway (part_002 lines 252-257). -/
def contentsOf (history : List Message) (newMessage : String) (images : List String)
    (cfg : ChatConfig) (videoData : Option String) : List ApiContent :=
  let current : ApiContent := { role := "user", parts := currentPartsOf newMessage images videoData }
  if isSingleTurnOnly cfg.model then [current]
  else chatHistoryOf history ++ [current]

/-- The transmitted contents as claim C9 describes them: the input history with
system-role and in-progress messages filtered out, in original order, followed
by the new user turn.  This definition follows the words of the claim and is
compared against contentsOf, which follows the code. -/
def claimedContents (history : List Message) (newMessage : String) (images : List String)
    (videoData : Option String) : List ApiContent :=
  chatHistoryOf history ++ [{ role := "user", parts := currentPartsOf newMessage images videoData }]

/-! ## GeminiService.streamChat: the streamed response (part_002 lines 271-297) -/

/-- The first (and only inspected) candidate of a streamed chunk; the
groundingMetadata nesting of the source is flattened. -/
structure Candidate where
  groundingChunks : Option (List GroundingChunk) := none
  finishReason : Option String := none
deriving DecidableEq, Repr

/-- One chunk of the upstream SDK stream. -/
structure StreamChunk where
  text : Option String := none
  candidates : List Candidate := []
deriving DecidableEq, Repr

/-- One item yielded by streamChat to its consumer: a text fragment or a batch
of grounding citations. -/
inductive YieldItem where
  | text (s : String)
  | grounding (g : List GroundingChunk)
deriving DecidableEq, Repr

/-- The fixed safety-filter warning string (part_002 line 280). -/
def safetyNotice : String := "\n\n⚠️ *The response was filtered by safety settings.*"

/-- Text yield of one chunk: JS tests truthiness, so the empty string yields
nothing (part_002 lines 272-273). -/
def textYieldOf (c : StreamChunk) : List YieldItem :=
  match c.text with
  | some t => if t = "" then [] else [YieldItem.text t]
  | none => []

/-- Grounding yield of one chunk (part_002 lines 275-276); an empty array is
truthy in JS and is therefore still yielded. -/
def groundingYieldOf (c : StreamChunk) : List YieldItem :=
  match c.candidates.head? with
  | some cand =>
      match cand.groundingChunks with
      | some g => [YieldItem.grounding g]
      | none => []
  | none => []

/-- Safety yield of one chunk (part_002 lines 278-281). -/
def safetyYieldOf (c : StreamChunk) : List YieldItem :=
  match c.candidates.head? with
  | some cand => if cand.finishReason = some "SAFETY" then [YieldItem.text safetyNotice] else []
  | none => []

/-- Everything one upstream chunk makes streamChat yield, in source order:
text, then grounding, then the safety warning. -/
def yieldsOfChunk (c : StreamChunk) : List YieldItem :=
  textYieldOf c ++ groundingYieldOf c ++ safetyYieldOf c

/-- A Gateway error as the catch clause reads it: a message string and an
optional numeric status (the status, response.status and code fallbacks of the
source collapse into the one field). -/
structure GenError where
  message : String
  status : Option Nat := none
deriving DecidableEq, Repr

/-- The observable behaviour of one upstream stream: the chunks delivered in
order, then optionally an error interrupting the stream (an error before the
first chunk models the request call itself raising). -/
structure StreamOutcome where
  chunks : List StreamChunk := []
  error : Option GenError := none
deriving DecidableEq, Repr

/-- The fixed rate-limit string (part_002 line 293). -/
def rateLimitNotice : String := "🚀 **Rate Limit Reached**: Please wait."

/-- The generic error yield: comet banner plus the first 100 characters of the
message and an ellipsis (part_002 line 296). -/
def unexpectedNotice (msg : String) : String :=
  "☄️ **Error**: " ++ (String.mk (msg.toList.take 100) ++ "...")

/-- The full yield sequence of streamChat for one outcome (part_002 lines
271-297).  A thrown error is re-raised when its message mentions a missing
entity or its status is 404; a 429 yields the fixed rate-limit string; any
other error yields the generic notice.  Yields produced before the error were
already delivered to the consumer and therefore stay. -/
def streamChatYields (outcome : StreamOutcome) : Except GenError (List YieldItem) :=
  let normal := (outcome.chunks.map yieldsOfChunk).flatten
  match outcome.error with
  | none => Except.ok normal
  | some e =>
      if jsIncludes e.message "Requested entity was not found" ∨ e.status = some 404 then
        Except.error e
      else if e.status = some 429 then
        Except.ok (normal ++ [YieldItem.text rateLimitNotice])
      else
        Except.ok (normal ++ [YieldItem.text (unexpectedNotice e.message)])

/-! ## V1 GeminiService.streamChat (services/geminiService.ts lines 88-112) -/

/-- The V1 stream has no safety-filter branch: one chunk yields only text and
grounding. -/
def yieldsOfChunkV1 (c : StreamChunk) : List YieldItem :=
  textYieldOf c ++ groundingYieldOf c

/-- V1 catch notice for unsupported options (geminiService.ts line 106). -/
def optionsNoticeV1 : String :=
  "Error: This model may not support the selected options (like Deep Thinking or Search). Please try disabling them in the sidebar."

/-- V1 catch notice for models without history support (geminiService.ts line 108). -/
def multiturnNoticeV1 : String :=
  "Error: This model does not support conversational history. Try starting a new chat or switching models."

/-- The full yield sequence of the V1 streamChat: two recognised error shapes
are converted into yielded notices, every other error is re-raised
(geminiService.ts lines 101-112). -/
def streamChatYieldsV1 (outcome : StreamOutcome) : Except GenError (List YieldItem) :=
  let normal := (outcome.chunks.map yieldsOfChunkV1).flatten
  match outcome.error with
  | none => Except.ok normal
  | some e =>
      if jsIncludes e.message "thinking_config" ∨ jsIncludes e.message "not supported" then
        Except.ok (normal ++ [YieldItem.text optionsNoticeV1])
      else if jsIncludes e.message "Multiturn chat" then
        Except.ok (normal ++ [YieldItem.text multiturnNoticeV1])
      else
        Except.error e

/-! ## V2 App state (App.tsx, second document)

The component state relevant to the claims: the signed-in identity (only its
id matters), the session list, the active session id, plus logs of the calls
made to the Sync Backend (firebaseService.saveSession and
firebaseService.deleteSession) so that persistence effects are observable. -/

structure AppState where
  user : Option String := none
  sessions : List ChatSession := []
  currentSessionId : Option String := none
  writes : List ChatSession := []
  deletes : List String := []
deriving DecidableEq, Repr

/-- saveCurrentSession (App.tsx lines 522-537): looks up the current session,
overwrites its messages (and optionally its title: an absent or empty title
argument keeps the stored one), mirrors the updated session to the backend
(recorded in writes) and stores it back into the list.  Without a user or a
current session, or when the lookup fails, nothing happens. -/
def saveCurrentSession (st : AppState) (updatedMessages : List Message)
    (title : Option String) : AppState :=
  match st.user, st.currentSessionId with
  | some _, some cid =>
      match st.sessions.find? (fun s => s.id == cid) with
      | none => st
      | some session =>
          let updatedSession : ChatSession :=
            { session with messages := updatedMessages, title := title.getD session.title }
          { st with
            sessions := st.sessions.map (fun s => if s.id == cid then updatedSession else s),
            writes := st.writes ++ [updatedSession] }
  | _, _ => st

/-- The in-memory setSessions updates of the form
prev.map(s => s.id === currentSessionId ? ...messages... : s) used by
processGeneration and handleEditMessage.  Purely in-memory: no backend write. -/
def setCurrentSessionMessages (st : AppState) (msgs : List Message) : AppState :=
  { st with sessions := st.sessions.map (fun s =>
      if some s.id = st.currentSessionId then { s with messages := msgs } else s) }

/-- The two loop variables of the streaming for-await: the accumulated text and
the last grounding batch (App.tsx lines 599-600). -/
structure StreamFold where
  fullContent : String := ""
  groundingSources : List GroundingChunk := []
deriving DecidableEq, Repr

/-- One step of the streaming loop on the loop variables alone. -/
def stepYield (acc : StreamFold) (y : YieldItem) : StreamFold :=
  match y with
  | YieldItem.text s => { acc with fullContent := acc.fullContent ++ s }
  | YieldItem.grounding g => { acc with groundingSources := g }

/-- The loop variables after consuming a whole yield sequence. -/
def foldYields (ys : List YieldItem) : StreamFold :=
  ys.foldl stepYield {}

/-- One step of the streaming loop including its in-memory re-render: a text
fragment extends the accumulated content and rewrites the placeholder message
in the current session; a grounding batch only updates the loop variable
(App.tsx lines 601-606). -/
def applyYield (botMsgId : String) (acc : AppState × StreamFold) (y : YieldItem) :
    AppState × StreamFold :=
  match y with
  | YieldItem.text s =>
      let fold : StreamFold := { acc.2 with fullContent := acc.2.fullContent ++ s }
      let st : AppState := { acc.1 with sessions := acc.1.sessions.map (fun sess =>
          if some sess.id = acc.1.currentSessionId then
            { sess with messages := sess.messages.map (fun m =>
                if m.id == botMsgId then { m with content := fold.fullContent, isLoading := false }
                else m) }
          else sess) }
      (st, fold)
  | YieldItem.grounding g => (acc.1, { acc.2 with groundingSources := g })

/-- The whole streaming loop threaded through the app state. -/
def streamLoop (botMsgId : String) (st : AppState) (ys : List YieldItem) :
    AppState × StreamFold :=
  ys.foldl (applyYield botMsgId) (st, {})

/-- The three generation kinds of processGeneration. -/
inductive GenKind where
  | video
  | image
  | text
deriving DecidableEq, Repr

/-- The actualType dispatch of processGeneration (App.tsx lines 562-567): veo
models are video, image models without a video attachment are image, the rest
are text. -/
def genKindOf (model : String) (videoData : Option String) : GenKind :=
  if jsIncludes model "veo" then GenKind.video
  else if jsIncludes model "image" && videoData.isNone then GenKind.image
  else GenKind.text

/-- The message written by the catch clause of processGeneration (App.tsx
lines 609-612): a model message whose content is the error text behind a
fixed marker, with the in-progress flag cleared; a falsy (empty) message
string falls back to the literal Error. -/
def catchMessage (botMsgId : String) (now : Nat) (e : GenError) : Message :=
  { id := botMsgId, role := Role.model,
    content := "Error: " ++ (if e.message = "" then "Error" else e.message),
    timestamp := now, isLoading := false }

/-- The behaviour of the Gateway during one turn, one component per generation
kind; processGeneration consults the component matching its branch. -/
structure GatewayBehavior where
  stream : StreamOutcome := {}
  image : Except GenError (List String) := Except.error { message := "" }
  video : Except GenError String := Except.error { message := "" }

/-- processGeneration (App.tsx lines 561-613).  Each branch first re-renders
the in-memory state with a placeholder model message carrying the in-progress
flag of its kind, then settles the turn with exactly one saveCurrentSession
on the full final message list; the shared catch clause likewise performs one
save with the error message. -/
def processGeneration (st : AppState) (text : String) (images : List String)
    (history : List Message) (botMsgId : String) (cfg : ChatConfig)
    (videoData : Option String) (now : Nat) (gw : GatewayBehavior) : AppState :=
  match genKindOf cfg.model videoData with
  | GenKind.video =>
      let st1 := setCurrentSessionMessages st (history ++
        [{ id := botMsgId, role := Role.model, content := "Synthesizing cosmic motion (Veo)...",
           timestamp := now, isDirecting := true }])
      match gw.video with
      | Except.ok videoUri =>
          saveCurrentSession st1 (history ++
            [{ id := botMsgId, role := Role.model, content := "Cosmic render complete.",
               videoUri := some videoUri, timestamp := now, isDirecting := false }]) none
      | Except.error e => saveCurrentSession st1 (history ++ [catchMessage botMsgId now e]) none
  | GenKind.image =>
      let st1 := setCurrentSessionMessages st (history ++
        [{ id := botMsgId, role := Role.model, content := "", timestamp := now,
           isPainting := true }])
      match gw.image with
      | Except.ok generatedImages =>
          let actionText := if images.isEmpty then "Generated: \"" ++ text ++ "\""
                            else "Edited image"
          saveCurrentSession st1 (history ++
            [{ id := botMsgId, role := Role.model, content := actionText,
               images := generatedImages, timestamp := now, isPainting := false }]) none
      | Except.error e => saveCurrentSession st1 (history ++ [catchMessage botMsgId now e]) none
  | GenKind.text =>
      let st1 := setCurrentSessionMessages st (history ++
        [{ id := botMsgId, role := Role.model, content := "", timestamp := now,
           isLoading := true }])
      match streamChatYields gw.stream with
      | Except.ok ys =>
          let looped := streamLoop botMsgId st1 ys
          saveCurrentSession looped.1 (history ++
            [{ id := botMsgId, role := Role.model, content := looped.2.fullContent,
               timestamp := now, isLoading := false,
               groundingSources := looped.2.groundingSources }]) none
      | Except.error e => saveCurrentSession st1 (history ++ [catchMessage botMsgId now e]) none

/-- handleEditMessage (App.tsx lines 541-559): find the edited message,
truncate the sequence to everything strictly before it plus the message with
its new content, persist the truncation, update the in-memory list, then
regenerate with processGeneration.  The video attachment is forwarded only
when it is a real data URL rather than the Attached Video marker. -/
def handleEditMessage (st : AppState) (messageId newContent : String)
    (botMsgId : String) (cfg : ChatConfig) (now : Nat) (gw : GatewayBehavior) : AppState :=
  match st.user, st.currentSessionId with
  | some _, some cid =>
      match st.sessions.find? (fun s => s.id == cid) with
      | none => st
      | some session =>
          match session.messages.findIdx? (fun m => m.id == messageId) with
          | none => st
          | some msgIndex =>
              match session.messages[msgIndex]? with
              | none => st
              | some oldMsg =>
                  let updatedUserMsg : Message := { oldMsg with content := newContent }
                  let newHistory := session.messages.take msgIndex ++ [updatedUserMsg]
                  let st1 := saveCurrentSession st newHistory none
                  let st2 := setCurrentSessionMessages st1 newHistory
                  let videoData : Option String :=
                    match updatedUserMsg.videoUri with
                    | some v => if v = "" ∨ v = "Attached Video" then none else some v
                    | none => none
                  processGeneration st2 newContent updatedUserMsg.images newHistory botMsgId
                    cfg videoData now gw
  | _, _ => st

/-- The pure list transform shared by both renameSession handlers (App.tsx
lines 104-108 and 516-520): retitle the sessions with the given id, keep the
rest untouched. -/
def renameSessions (sessions : List ChatSession) (id newTitle : String) : List ChatSession :=
  sessions.map (fun s => if s.id == id then { s with title := newTitle } else s)

/-- renameSession of the V2 app (App.tsx lines 516-520); the backend title
update touches only the title field and is not logged here. -/
def renameSession (st : AppState) (id newTitle : String) : AppState :=
  match st.user with
  | none => st
  | some _ => { st with sessions := renameSessions st.sessions id newTitle }

/-- The 30-character title derivation of the V1 app (App.tsx lines 127-134):
the first 30 characters of the first user message, with an ellipsis when the
message is longer. -/
def deriveTitleV1 (content : String) : String :=
  String.mk (content.toList.take 30) ++ (if content.length > 30 then "..." else "")

/-- Modelled from the spec: the V2 send path calls geminiService.generateTitle
(App.tsx line 624), whose implementation is not among the source files.  The
spec requires the controller to derive a short title from the text; this is
modelled as the same 30-character truncation that the in-repo V1 title
derivation uses. -/
def generateTitle (text : String) : String :=
  deriveTitleV1 text

/-- The V2 composer guard (ChatInput, second document, line 386): a turn can
only be sent when it has trimmed text, an image, or a video attachment. -/
def canSend (text : String) (images : List String) (video : Option String) : Bool :=
  !(jsTrim text == "" && images.isEmpty && video.isNone)

/-- The auto-title decision of handleSendMessage (App.tsx lines 621-632),
taken only for the first message of a session: a generated title when text is
present, otherwise a fixed label per attachment kind. -/
def autoTitle (messagesEmpty : Bool) (text : String) (images : List String)
    (videoData : Option String) : Option String :=
  if messagesEmpty then
    if !(jsTrim text == "") then some (generateTitle text)
    else if !images.isEmpty then some "Image Analysis"
    else if videoData.isSome then some "Video Analysis"
    else none
  else none

/-- The user message appended by handleSendMessage (App.tsx line 617). -/
def sentUserMsg (userMsgId text : String) (now : Nat) (images : List String)
    (videoData : Option String) : Message :=
  { id := userMsgId, role := Role.user, content := text, timestamp := now, images := images,
    videoUri := if videoData.isSome then some "Attached Video" else none }

/-- handleSendMessage (App.tsx lines 615-639): append the user message and
persist optimistically, rename on a first message, then run the turn through
processGeneration.  The asynchronous generateTitle resolution commutes with
the save calls (both preserve the respective other field), so the rename is
applied before the generation here. -/
def handleSendMessage (st : AppState) (text : String) (images : List String)
    (videoData : Option String) (userMsgId botMsgId : String) (cfg : ChatConfig)
    (now : Nat) (gw : GatewayBehavior) : AppState :=
  match st.user, st.currentSessionId with
  | some _, some cid =>
      let messages := ((st.sessions.find? (fun s => s.id == cid)).map
        (fun s => s.messages)).getD []
      let userMsg : Message := sentUserMsg userMsgId text now images videoData
      let updatedMessages := messages ++ [userMsg]
      let st1 := saveCurrentSession st updatedMessages none
      let st2 := match autoTitle (messages.length = 0) text images videoData with
        | some t => renameSession st1 cid t
        | none => st1
      processGeneration st2 text images updatedMessages botMsgId cfg videoData now gw
  | _, _ => st

/-- deleteSession of the V2 app (App.tsx line 514): remove the session, record
the backend delete, and, when the deleted session was active, activate the
last remaining session or clear the active id when none remain. -/
def deleteSessionV2 (st : AppState) (id : String) : AppState :=
  match st.user with
  | none => st
  | some _ =>
      let remaining := st.sessions.filter (fun s => s.id != id)
      { st with
        sessions := remaining,
        deletes := st.deletes ++ [id],
        currentSessionId :=
          if st.currentSessionId = some id then remaining.getLast?.map (fun s => s.id)
          else st.currentSessionId }

/-- The empty session synthesized by the change-feed handler (App.tsx
line 495). -/
def newCosmicSession (now : Nat) : ChatSession :=
  { id := toString now, title := "New Cosmic Chat", messages := [], createdAt := now }

/-- The change-feed callback of the V2 app (App.tsx lines 492-502): replace
the list wholesale; when the feed reports zero sessions, synthesize one empty
session, persist it and activate it; otherwise, when no session is active,
activate the last loaded one. -/
def onSessionsSnapshot (st : AppState) (loadedSessions : List ChatSession) (now : Nat) :
    AppState :=
  match st.user with
  | none => st
  | some _ =>
      if loadedSessions.isEmpty then
        { st with
          sessions := [newCosmicSession now],
          writes := st.writes ++ [newCosmicSession now],
          currentSessionId := some (newCosmicSession now).id }
      else
        { st with
          sessions := loadedSessions,
          currentSessionId :=
            if st.currentSessionId = none then loadedSessions.getLast?.map (fun s => s.id)
            else st.currentSessionId }

/-! ## V1 App (App.tsx, first document) -/

/-- The fresh session created by the V1 createNewChat (App.tsx lines 76-87). -/
def freshSessionV1 (now : Nat) : ChatSession :=
  { id := toString now, title := "New Chat", messages := [], createdAt := now }

/-- deleteSession of the V1 app (App.tsx lines 89-102): remove the session;
when it was active, activate the last remaining session, or schedule
createNewChat when none remain (the settled state after that deferred call is
modelled here: one fresh empty session, active). -/
def deleteSessionV1 (sessions : List ChatSession) (currentSessionId : Option String)
    (id : String) (now : Nat) : List ChatSession × Option String :=
  let newSessions := sessions.filter (fun s => s.id != id)
  if currentSessionId = some id then
    match newSessions.getLast? with
    | some last => (newSessions, some last.id)
    | none => (newSessions ++ [freshSessionV1 now], some (freshSessionV1 now).id)
  else (newSessions, currentSessionId)

/-- updateCurrentSessionMessages of the V1 app (App.tsx lines 122-140):
applies the update function to the current session and, when the session was
empty and now is not, derives the title from the first user message. -/
def updateCurrentSessionMessagesV1 (sessions : List ChatSession)
    (currentSessionId : Option String) (updateFn : List Message → List Message) :
    List ChatSession :=
  sessions.map (fun session =>
    if some session.id = currentSessionId then
      let updatedMessages := updateFn session.messages
      let newTitle :=
        if session.messages = [] ∧ updatedMessages ≠ [] then
          match updatedMessages.find? (fun m => m.role == Role.user) with
          | some firstUserMsg => deriveTitleV1 firstUserMsg.content
          | none => session.title
        else session.title
      { session with messages := updatedMessages, title := newTitle }
    else session)

/-- The fixed error reply appended by the V1 triggerBotResponse catch clause
(App.tsx lines 178-184). -/
def errorReplyV1 (errMsgId : String) (now : Nat) : Message :=
  { id := errMsgId, role := Role.model,
    content := "I encountered an error while processing your request. Please try again.",
    timestamp := now, isLoading := false }

/-- How the V1 streaming loop rewrites the placeholder message for one yield
(App.tsx lines 161-175): text extends the content, grounding replaces the
sources; both clear the in-progress flag. -/
def applyYieldToMessageV1 (m : Message) (y : YieldItem) : Message :=
  match y with
  | YieldItem.text s => { m with content := m.content ++ s, isLoading := false }
  | YieldItem.grounding g => { m with groundingSources := g, isLoading := false }

/-- triggerBotResponse of the V1 app (App.tsx lines 142-188), projected to the
message list of the current session: append an empty in-progress placeholder,
stream into it; when the stream raises, the fragments already delivered stay
applied to the placeholder and the catch clause appends a separate fixed error
reply after it. -/
def triggerBotResponseV1 (historyBeforeBot : List Message) (botMsgId errMsgId : String)
    (now : Nat) (outcome : StreamOutcome) : List Message :=
  let placeholder : Message :=
    { id := botMsgId, role := Role.model, content := "", timestamp := now, isLoading := true }
  match streamChatYieldsV1 outcome with
  | Except.ok ys => historyBeforeBot ++ [ys.foldl applyYieldToMessageV1 placeholder]
  | Except.error _ =>
      let deliveredYields := (outcome.chunks.map yieldsOfChunkV1).flatten
      historyBeforeBot ++
        [deliveredYields.foldl applyYieldToMessageV1 placeholder, errorReplyV1 errMsgId now]

/-- handleEditSave of the V1 app (App.tsx lines 240-255), projected to the
message list of the current session: truncate to everything strictly before
the edited message, keep it with the new content and a cleared speech cache,
then regenerate. -/
def handleEditSaveV1 (messages : List Message) (messageId newContent : String)
    (botMsgId errMsgId : String) (now : Nat) (outcome : StreamOutcome) : List Message :=
  match messages.findIdx? (fun m => m.id == messageId) with
  | none => messages
  | some msgIndex =>
      match messages[msgIndex]? with
      | none => messages
      | some oldMsg =>
          let editedMsg : Message := { oldMsg with content := newContent, audioBase64 := none }
          let truncatedHistory := messages.take msgIndex ++ [editedMsg]
          triggerBotResponseV1 truncatedHistory botMsgId errMsgId now outcome

/-! ## Helper lemmas -/

/-- Finding a session by id commutes with mapping an id-preserving function
over the list. -/
lemma find?_map_of_id (l : List ChatSession) (f : ChatSession → ChatSession)
    (hf : ∀ s, (f s).id = s.id) (cid : String) :
    (l.map f).find? (fun s => s.id == cid) = (l.find? (fun s => s.id == cid)).map f := by
  induction l with
  | nil => rfl
  | cons a t ih =>
      by_cases h : a.id = cid
      · rw [List.map_cons, List.find?_cons_of_pos, List.find?_cons_of_pos] <;>
          simp [hf, h]
      · rw [List.map_cons, List.find?_cons_of_neg, List.find?_cons_of_neg, ih] <;>
          simp [hf, h]

/-- What saveCurrentSession does when the lookup succeeds: the current session
is overwritten with the new messages, exactly one backend write of that full
session is recorded, and every other state component is untouched. -/
lemma saveCurrentSession_final (st : AppState) (final : List Message)
    (u cid : String) (session : ChatSession)
    (hu : st.user = some u) (hc : st.currentSessionId = some cid)
    (hf : st.sessions.find? (fun s => s.id == cid) = some session) :
    (saveCurrentSession st final none).sessions.find? (fun s => s.id == cid)
        = some { session with messages := final } ∧
    (saveCurrentSession st final none).writes
        = st.writes ++ [{ session with messages := final }] ∧
    (saveCurrentSession st final none).user = st.user ∧
    (saveCurrentSession st final none).currentSessionId = st.currentSessionId ∧
    (saveCurrentSession st final none).deletes = st.deletes := by
  have hsid : session.id = cid := by
    have := List.find?_some hf
    simpa using this
  have hsave : saveCurrentSession st final none =
      { st with
        sessions := st.sessions.map (fun s =>
          if s.id == cid then { session with messages := final } else s),
        writes := st.writes ++ [{ session with messages := final }] } := by
    unfold saveCurrentSession
    rw [hu, hc]
    simp only [hf, Option.getD]
  rw [hsave]
  refine ⟨?_, rfl, rfl, rfl, rfl⟩
  have hpres : ∀ s : ChatSession,
      ((fun s => if s.id == cid then { session with messages := final } else s) s).id = s.id := by
    intro s
    by_cases h : s.id = cid
    · simp [h, hsid]
    · simp [h]
  rw [find?_map_of_id _ _ hpres, hf]
  simp [hsid]

/-- setCurrentSessionMessages keeps everything except the messages of the
current session; in particular the current session is still found, with its
other fields intact. -/
lemma setCurrentSessionMessages_spec (st : AppState) (temp : List Message)
    (cid : String) (session : ChatSession)
    (hc : st.currentSessionId = some cid)
    (hf : st.sessions.find? (fun s => s.id == cid) = some session) :
    (setCurrentSessionMessages st temp).sessions.find? (fun s => s.id == cid)
        = some { session with messages := temp } ∧
    (setCurrentSessionMessages st temp).user = st.user ∧
    (setCurrentSessionMessages st temp).currentSessionId = st.currentSessionId ∧
    (setCurrentSessionMessages st temp).writes = st.writes ∧
    (setCurrentSessionMessages st temp).deletes = st.deletes := by
  have hsid : session.id = cid := by
    have := List.find?_some hf
    simpa using this
  refine ⟨?_, rfl, rfl, rfl, rfl⟩
  unfold setCurrentSessionMessages
  have hpres : ∀ s : ChatSession,
      ((fun s => if some s.id = st.currentSessionId then { s with messages := temp } else s) s).id
        = s.id := by
    intro s
    by_cases h : some s.id = st.currentSessionId
    · simp [h]
    · simp [h]
  show (st.sessions.map _).find? _ = _
  rw [find?_map_of_id _ _ hpres, hf]
  simp [hc, hsid]

/-- The streaming loop only ever touches the messages of the current session
in memory: the fold result matches the plain fold on the loop variables, no
backend write occurs, and the current session stays in place with all of its
other fields intact. -/
lemma streamLoop_spec (botMsgId : String) (ys : List YieldItem) :
    ∀ (st : AppState) (acc : StreamFold),
      (ys.foldl (applyYield botMsgId) (st, acc)).2 = ys.foldl stepYield acc ∧
      (ys.foldl (applyYield botMsgId) (st, acc)).1.user = st.user ∧
      (ys.foldl (applyYield botMsgId) (st, acc)).1.currentSessionId = st.currentSessionId ∧
      (ys.foldl (applyYield botMsgId) (st, acc)).1.writes = st.writes ∧
      (ys.foldl (applyYield botMsgId) (st, acc)).1.deletes = st.deletes ∧
      ∀ cid session, st.currentSessionId = some cid →
        st.sessions.find? (fun s => s.id == cid) = some session →
        ∃ m', (ys.foldl (applyYield botMsgId) (st, acc)).1.sessions.find? (fun s => s.id == cid)
                = some { session with messages := m' } := by
  induction ys with
  | nil =>
      intro st acc
      refine ⟨rfl, rfl, rfl, rfl, rfl, ?_⟩
      intro cid session _ hf
      exact ⟨session.messages, hf⟩
  | cons y t ih =>
      intro st acc
      rw [List.foldl_cons, List.foldl_cons]
      cases y with
      | grounding g =>
          have hstep : applyYield botMsgId (st, acc) (YieldItem.grounding g)
              = (st, stepYield acc (YieldItem.grounding g)) := rfl
          rw [hstep]
          exact ih st _
      | text s =>
          have hstate :
              (applyYield botMsgId (st, acc) (YieldItem.text s)).1
                = { st with sessions := st.sessions.map (fun sess =>
                    if some sess.id = st.currentSessionId then
                      { sess with messages := sess.messages.map (fun m =>
                          if m.id == botMsgId then
                            { m with content := acc.fullContent ++ s, isLoading := false }
                          else m) }
                    else sess) } := rfl
          have hfold :
              (applyYield botMsgId (st, acc) (YieldItem.text s)).2
                = stepYield acc (YieldItem.text s) := rfl
          have hstep : applyYield botMsgId (st, acc) (YieldItem.text s)
              = ((applyYield botMsgId (st, acc) (YieldItem.text s)).1,
                 stepYield acc (YieldItem.text s)) := by
            rw [← hfold]
          rw [hstep]
          obtain ⟨h2, hu, hc, hw, hd, hfind⟩ :=
            ih (applyYield botMsgId (st, acc) (YieldItem.text s)).1
              (stepYield acc (YieldItem.text s))
          refine ⟨h2, by rw [hu, hstate], by rw [hc, hstate], by rw [hw, hstate],
            by rw [hd, hstate], ?_⟩
          intro cid session hcid hf
          have hcid' : (applyYield botMsgId (st, acc) (YieldItem.text s)).1.currentSessionId
              = some cid := by rw [hstate]; exact hcid
          have hpres : ∀ sess : ChatSession,
              ((fun sess =>
                if some sess.id = st.currentSessionId then
                  { sess with messages := sess.messages.map (fun m =>
                      if m.id == botMsgId then
                        { m with content := acc.fullContent ++ s, isLoading := false }
                      else m) }
                else sess) sess).id = sess.id := by
            intro sess
            by_cases h : some sess.id = st.currentSessionId
            · simp [h]
            · simp [h]
          have hf' : (applyYield botMsgId (st, acc) (YieldItem.text s)).1.sessions.find?
              (fun s => s.id == cid)
                = some { session with messages := session.messages.map (fun m =>
                    if m.id == botMsgId then
                      { m with content := acc.fullContent ++ s, isLoading := false }
                    else m) } := by
            rw [hstate]
            show (st.sessions.map _).find? _ = _
            rw [find?_map_of_id _ _ hpres, hf]
            have hsid : session.id = cid := by
              have := List.find?_some hf
              simpa using this
            simp [hcid, hsid]
          obtain ⟨m', hm'⟩ := hfind cid _ hcid' hf'
          exact ⟨_, hm'⟩

/-- streamLoop_spec restated in terms of streamLoop and foldYields. -/
lemma streamLoop_spec' (botMsgId : String) (ys : List YieldItem) (st : AppState) :
    (streamLoop botMsgId st ys).2 = foldYields ys ∧
    (streamLoop botMsgId st ys).1.user = st.user ∧
    (streamLoop botMsgId st ys).1.currentSessionId = st.currentSessionId ∧
    (streamLoop botMsgId st ys).1.writes = st.writes ∧
    (streamLoop botMsgId st ys).1.deletes = st.deletes ∧
    ∀ cid session, st.currentSessionId = some cid →
      st.sessions.find? (fun s => s.id == cid) = some session →
      ∃ m', (streamLoop botMsgId st ys).1.sessions.find? (fun s => s.id == cid)
              = some { session with messages := m' } :=
  streamLoop_spec botMsgId ys st {}

/-- The common settle shape of the non-streaming branches of
processGeneration: an in-memory placeholder update followed by one
saveCurrentSession of the final message list. -/
lemma set_then_save_spec (st : AppState) (temp final : List Message)
    (u cid : String) (session : ChatSession)
    (hu : st.user = some u) (hc : st.currentSessionId = some cid)
    (hf : st.sessions.find? (fun s => s.id == cid) = some session) :
    (saveCurrentSession (setCurrentSessionMessages st temp) final none).sessions.find?
        (fun s => s.id == cid) = some { session with messages := final } ∧
    (saveCurrentSession (setCurrentSessionMessages st temp) final none).writes
        = st.writes ++ [{ session with messages := final }] ∧
    (saveCurrentSession (setCurrentSessionMessages st temp) final none).user = st.user ∧
    (saveCurrentSession (setCurrentSessionMessages st temp) final none).currentSessionId
        = st.currentSessionId := by
  obtain ⟨hfind1, hu1, hc1, hw1, hd1⟩ := setCurrentSessionMessages_spec st temp cid session hc hf
  have hu' : (setCurrentSessionMessages st temp).user = some u := by rw [hu1, hu]
  have hc' : (setCurrentSessionMessages st temp).currentSessionId = some cid := by rw [hc1, hc]
  obtain ⟨hfind2, hw2, hu2, hc2, hd2⟩ :=
    saveCurrentSession_final (setCurrentSessionMessages st temp) final u cid
      { session with messages := temp } hu' hc' hfind1
  exact ⟨hfind2, by rw [hw2, hw1], by rw [hu2, hu1], by rw [hc2, hc1]⟩

/-- The settle shape of the streaming branch of processGeneration: placeholder
update, in-memory streaming loop, then one saveCurrentSession. -/
lemma set_loop_save_spec (st : AppState) (temp final : List Message) (botMsgId : String)
    (ys : List YieldItem) (u cid : String) (session : ChatSession)
    (hu : st.user = some u) (hc : st.currentSessionId = some cid)
    (hf : st.sessions.find? (fun s => s.id == cid) = some session) :
    (saveCurrentSession (streamLoop botMsgId (setCurrentSessionMessages st temp) ys).1
        final none).sessions.find?
        (fun s => s.id == cid) = some { session with messages := final } ∧
    (saveCurrentSession (streamLoop botMsgId (setCurrentSessionMessages st temp) ys).1
        final none).writes
        = st.writes ++ [{ session with messages := final }] ∧
    (saveCurrentSession (streamLoop botMsgId (setCurrentSessionMessages st temp) ys).1
        final none).user = st.user ∧
    (saveCurrentSession (streamLoop botMsgId (setCurrentSessionMessages st temp) ys).1
        final none).currentSessionId = st.currentSessionId := by
  obtain ⟨hfind1, hu1, hc1, hw1, hd1⟩ := setCurrentSessionMessages_spec st temp cid session hc hf
  have hu' : (setCurrentSessionMessages st temp).user = some u := by rw [hu1, hu]
  have hc' : (setCurrentSessionMessages st temp).currentSessionId = some cid := by rw [hc1, hc]
  obtain ⟨hfold, hu2, hc2, hw2, hd2, hfind2⟩ :=
    streamLoop_spec' botMsgId ys (setCurrentSessionMessages st temp)
  obtain ⟨m', hm'⟩ := hfind2 cid { session with messages := temp } hc' hfind1
  have hu'' : (streamLoop botMsgId (setCurrentSessionMessages st temp) ys).1.user = some u := by
    rw [hu2, hu']
  have hc'' : (streamLoop botMsgId (setCurrentSessionMessages st temp) ys).1.currentSessionId
      = some cid := by rw [hc2, hc']
  obtain ⟨hfind3, hw3, hu3, hc3, hd3⟩ :=
    saveCurrentSession_final (streamLoop botMsgId (setCurrentSessionMessages st temp) ys).1
      final u cid { session with messages := m' } hu'' hc'' hm'
  exact ⟨hfind3, by rw [hw3, hw2, hw1], by rw [hu3, hu2, hu1], by rw [hc3, hc2, hc1]⟩

/-- Every branch of processGeneration settles the turn the same way: the
current session ends with the prior history plus exactly one terminal model
message, exactly one backend write of that full session is recorded, and the
identity and active-session id are untouched. -/
lemma processGeneration_final (st : AppState) (text : String) (images : List String)
    (history : List Message) (botMsgId : String) (cfg : ChatConfig)
    (videoData : Option String) (now : Nat) (gw : GatewayBehavior)
    (u cid : String) (session : ChatSession)
    (hu : st.user = some u) (hc : st.currentSessionId = some cid)
    (hf : st.sessions.find? (fun s => s.id == cid) = some session) :
    ∃ bot : Message,
      (processGeneration st text images history botMsgId cfg videoData now gw).sessions.find?
          (fun s => s.id == cid) = some { session with messages := history ++ [bot] } ∧
      (processGeneration st text images history botMsgId cfg videoData now gw).writes
          = st.writes ++ [{ session with messages := history ++ [bot] }] ∧
      (processGeneration st text images history botMsgId cfg videoData now gw).user = st.user ∧
      (processGeneration st text images history botMsgId cfg videoData now gw).currentSessionId
          = st.currentSessionId ∧
      bot.id = botMsgId ∧ bot.role = Role.model ∧ bot.isLoading = false ∧
      bot.isPainting = false ∧ bot.isDirecting = false := by
  unfold processGeneration
  cases hk : genKindOf cfg.model videoData with
  | video =>
      cases hv : gw.video with
      | ok videoUri =>
          exact ⟨_, (set_then_save_spec st _ _ u cid session hu hc hf).1,
            (set_then_save_spec st _ _ u cid session hu hc hf).2.1,
            (set_then_save_spec st _ _ u cid session hu hc hf).2.2.1,
            (set_then_save_spec st _ _ u cid session hu hc hf).2.2.2,
            rfl, rfl, rfl, rfl, rfl⟩
      | error e =>
          exact ⟨catchMessage botMsgId now e, (set_then_save_spec st _ _ u cid session hu hc hf).1,
            (set_then_save_spec st _ _ u cid session hu hc hf).2.1,
            (set_then_save_spec st _ _ u cid session hu hc hf).2.2.1,
            (set_then_save_spec st _ _ u cid session hu hc hf).2.2.2,
            rfl, rfl, rfl, rfl, rfl⟩
  | image =>
      cases hv : gw.image with
      | ok generatedImages =>
          exact ⟨_, (set_then_save_spec st _ _ u cid session hu hc hf).1,
            (set_then_save_spec st _ _ u cid session hu hc hf).2.1,
            (set_then_save_spec st _ _ u cid session hu hc hf).2.2.1,
            (set_then_save_spec st _ _ u cid session hu hc hf).2.2.2,
            rfl, rfl, rfl, rfl, rfl⟩
      | error e =>
          exact ⟨catchMessage botMsgId now e, (set_then_save_spec st _ _ u cid session hu hc hf).1,
            (set_then_save_spec st _ _ u cid session hu hc hf).2.1,
            (set_then_save_spec st _ _ u cid session hu hc hf).2.2.1,
            (set_then_save_spec st _ _ u cid session hu hc hf).2.2.2,
            rfl, rfl, rfl, rfl, rfl⟩
  | text =>
      cases hv : streamChatYields gw.stream with
      | ok ys =>
          exact ⟨_, (set_loop_save_spec st _ _ botMsgId ys u cid session hu hc hf).1,
            (set_loop_save_spec st _ _ botMsgId ys u cid session hu hc hf).2.1,
            (set_loop_save_spec st _ _ botMsgId ys u cid session hu hc hf).2.2.1,
            (set_loop_save_spec st _ _ botMsgId ys u cid session hu hc hf).2.2.2,
            rfl, rfl, rfl, rfl, rfl⟩
      | error e =>
          exact ⟨catchMessage botMsgId now e, (set_then_save_spec st _ _ u cid session hu hc hf).1,
            (set_then_save_spec st _ _ u cid session hu hc hf).2.1,
            (set_then_save_spec st _ _ u cid session hu hc hf).2.2.1,
            (set_then_save_spec st _ _ u cid session hu hc hf).2.2.2,
            rfl, rfl, rfl, rfl, rfl⟩

/-! ## The content carried by a yield sequence -/

/-- The text a single yield contributes to the accumulated content. -/
def yieldText : YieldItem → String
  | YieldItem.text s => s
  | YieldItem.grounding _ => ""

/-- The concatenation of the texts of a yield sequence, in order. -/
def concatTexts : List YieldItem → String
  | [] => ""
  | y :: ys => yieldText y ++ concatTexts ys

/-- The text field of an upstream chunk, read as JS does (absent reads as
empty). -/
def chunkTextOf (c : StreamChunk) : String :=
  match c.text with
  | some t => t
  | none => ""

/-- Whether an upstream chunk carries the terminal safety-filter signal. -/
def chunkIsSafety (c : StreamChunk) : Bool :=
  match c.candidates.head? with
  | some cand => cand.finishReason == some "SAFETY"
  | none => false

/-- What one upstream chunk contributes to the final content: its text,
followed by the safety warning when it carries the safety signal. -/
def renderChunk (c : StreamChunk) : String :=
  chunkTextOf c ++ (if chunkIsSafety c then safetyNotice else "")

/-- The concatenated contributions of a chunk sequence. -/
def concatRenders : List StreamChunk → String
  | [] => ""
  | c :: cs => renderChunk c ++ concatRenders cs

/-- The concatenation of the text fragments of a chunk sequence, in yield
order, as claim C2 words it. -/
def concatChunkTexts : List StreamChunk → String
  | [] => ""
  | c :: cs => chunkTextOf c ++ concatChunkTexts cs

/-- The streaming loop accumulates exactly the concatenation of the yielded
texts. -/
lemma foldl_stepYield_fullContent (ys : List YieldItem) :
    ∀ acc : StreamFold, (ys.foldl stepYield acc).fullContent = acc.fullContent ++ concatTexts ys := by
  induction ys with
  | nil => intro acc; simp [concatTexts]
  | cons y t ih =>
      intro acc
      rw [List.foldl_cons, ih]
      cases y with
      | text s => simp [stepYield, concatTexts, yieldText, String.append_assoc]
      | grounding g => simp [stepYield, concatTexts, yieldText]

/-- The accumulated content of a whole yield sequence. -/
lemma foldYields_fullContent (ys : List YieldItem) :
    (foldYields ys).fullContent = concatTexts ys := by
  unfold foldYields
  rw [foldl_stepYield_fullContent]
  rfl

/-- concatTexts distributes over list append. -/
lemma concatTexts_append (a b : List YieldItem) :
    concatTexts (a ++ b) = concatTexts a ++ concatTexts b := by
  induction a with
  | nil => simp [concatTexts]
  | cons y t ih => simp [concatTexts, ih, String.append_assoc]

/-- One chunk yields exactly its rendered contribution as text. -/
lemma concatTexts_yieldsOfChunk (c : StreamChunk) :
    concatTexts (yieldsOfChunk c) = renderChunk c := by
  unfold yieldsOfChunk renderChunk chunkTextOf chunkIsSafety textYieldOf groundingYieldOf safetyYieldOf
  cases hx : c.text with
  | none =>
      cases hh : c.candidates.head? with
      | none => simp [concatTexts, yieldText]
      | some cand =>
          cases hg : cand.groundingChunks with
          | none =>
              by_cases hfr : cand.finishReason = some "SAFETY"
              · simp [hg, hfr, concatTexts, yieldText]
              · simp [hg, hfr, concatTexts, yieldText]
          | some g =>
              by_cases hfr : cand.finishReason = some "SAFETY"
              · simp [hg, hfr, concatTexts, yieldText]
              · simp [hg, hfr, concatTexts, yieldText]
  | some t =>
      by_cases ht : t = ""
      · cases hh : c.candidates.head? with
        | none => simp [ht, concatTexts, yieldText]
        | some cand =>
            cases hg : cand.groundingChunks with
            | none =>
                by_cases hfr : cand.finishReason = some "SAFETY"
                · simp [ht, hg, hfr, concatTexts, yieldText]
                · simp [ht, hg, hfr, concatTexts, yieldText]
            | some g =>
                by_cases hfr : cand.finishReason = some "SAFETY"
                · simp [ht, hg, hfr, concatTexts, yieldText]
                · simp [ht, hg, hfr, concatTexts, yieldText]
      · cases hh : c.candidates.head? with
        | none => simp [ht, concatTexts, yieldText]
        | some cand =>
            cases hg : cand.groundingChunks with
            | none =>
                by_cases hfr : cand.finishReason = some "SAFETY"
                · simp [ht, hg, hfr, concatTexts, yieldText]
                · simp [ht, hg, hfr, concatTexts, yieldText]
            | some g =>
                by_cases hfr : cand.finishReason = some "SAFETY"
                · simp [ht, hg, hfr, concatTexts, yieldText]
                · simp [ht, hg, hfr, concatTexts, yieldText]

/-- The texts yielded for a whole chunk sequence concatenate to the rendered
contributions of the chunks. -/
lemma concatTexts_flatten_yields (chunks : List StreamChunk) :
    concatTexts ((chunks.map yieldsOfChunk).flatten) = concatRenders chunks := by
  induction chunks with
  | nil => simp [concatTexts, concatRenders]
  | cons c cs ih =>
      simp only [List.map_cons, List.flatten_cons]
      rw [concatTexts_append, concatTexts_yieldsOfChunk, ih]
      rfl

/-- When the safety signal occurs at most on the final chunk, the rendered
contributions are exactly the concatenated texts with the warning appended
last when a safety signal occurred. -/
lemma concatRenders_terminal (chunks : List StreamChunk)
    (hterm : ∀ c ∈ chunks.dropLast, chunkIsSafety c = false) :
    concatRenders chunks
      = concatChunkTexts chunks ++ (if chunks.any chunkIsSafety then safetyNotice else "") := by
  induction chunks with
  | nil => simp [concatRenders, concatChunkTexts]
  | cons c cs ih =>
      cases cs with
      | nil =>
          simp only [concatRenders, concatChunkTexts, renderChunk, List.any_cons, List.any_nil,
            Bool.or_false]
          cases h : chunkIsSafety c <;> simp
      | cons c2 t =>
          have hc : chunkIsSafety c = false := by
            apply hterm
            simp [List.dropLast]
          have hterm' : ∀ x ∈ (c2 :: t).dropLast, chunkIsSafety x = false := by
            intro x hx
            apply hterm
            simp [List.dropLast_cons_of_ne_nil, hx]
          have ihx := ih hterm'
          rw [show concatRenders (c :: c2 :: t) = renderChunk c ++ concatRenders (c2 :: t) from rfl,
              show concatChunkTexts (c :: c2 :: t) = chunkTextOf c ++ concatChunkTexts (c2 :: t)
                from rfl, ihx]
          simp only [renderChunk, hc, List.any_cons, Bool.false_or, if_neg Bool.false_ne_true]
          simp [String.append_assoc]

/-! ## Concrete fixtures used by witnesses -/

/-- A session fixture. -/
def wSession : ChatSession := { id := "s1", title := "New Chat", messages := [], createdAt := 1 }

/-- An app-state fixture with a signed-in user and one active empty session. -/
def wState : AppState :=
  { user := some "u1", sessions := [wSession], currentSessionId := some "s1" }

/-- A text-model configuration fixture. -/
def wCfg : ChatConfig := { model := "gemini-3-flash-preview" }

/-- A user-message fixture. -/
def wUserMsg : Message := { id := "m1", role := Role.user, content := "hi", timestamp := 2 }

/-- A model-reply fixture. -/
def wBotMsg : Message := { id := "r1", role := Role.model, content := "hey", timestamp := 3 }

/-- A second user-message fixture. -/
def wUserMsg2 : Message := { id := "m2", role := Role.user, content := "more", timestamp := 4 }

/-- A session fixture with an existing three-message conversation. -/
def wEditSession : ChatSession :=
  { id := "s2", title := "Chat", messages := [wUserMsg, wBotMsg, wUserMsg2], createdAt := 1 }

/-- An app state fixture around the three-message session. -/
def wEditState : AppState :=
  { user := some "u1", sessions := [wEditSession], currentSessionId := some "s2" }

/-- A Gateway behaviour whose streamed call fails with a server error. -/
def wFailGw : GatewayBehavior :=
  { stream := { error := some { message := "boom", status := some 500 } } }

/-- A two-fragment upstream stream fixture. -/
def wChunks : List StreamChunk := [{ text := some "Hello " }, { text := some "world" }]

/-- A Gateway behaviour streaming the two-fragment fixture successfully. -/
def wOkGw : GatewayBehavior := { stream := { chunks := wChunks } }

/-- An upstream stream fixture whose final chunk carries text and the safety
signal. -/
def wSafetyChunks : List StreamChunk :=
  [{ text := some "Hello " },
   { text := some "world", candidates := [{ finishReason := some "SAFETY" }] }]

/-- A Gateway behaviour streaming the safety fixture. -/
def wSafetyGw : GatewayBehavior := { stream := { chunks := wSafetyChunks } }

/-- A rate-limit error fixture. -/
def w429Error : GenError := { message := "Resource exhausted", status := some 429 }

/-- A Gateway behaviour whose streamed call raises the rate-limit error before
delivering any chunk. -/
def w429Gw : GatewayBehavior := { stream := { chunks := [], error := some w429Error } }

/-! ## Claims -/

/-- C6: For every failure during a send or edit turn (any generation kind),
the failure is caught at the call site that issued it: processGeneration is
total over every Gateway behaviour, including every error, so nothing reaches
a top-level boundary, and the turn is never silently dropped — the current
session always ends with the turn history plus one terminal model message
with every in-progress flag cleared, and that final session is persisted. -/
theorem C6_failures_caught_and_turn_settled (st : AppState) (text : String)
    (images : List String) (history : List Message) (botMsgId : String) (cfg : ChatConfig)
    (videoData : Option String) (now : Nat) (gw : GatewayBehavior)
    (u cid : String) (session : ChatSession)
    (hu : st.user = some u) (hc : st.currentSessionId = some cid)
    (hf : st.sessions.find? (fun s => s.id == cid) = some session) :
    ∃ bot : Message,
      (processGeneration st text images history botMsgId cfg videoData now gw).sessions.find?
          (fun s => s.id == cid) = some { session with messages := history ++ [bot] } ∧
      (processGeneration st text images history botMsgId cfg videoData now gw).writes
          = st.writes ++ [{ session with messages := history ++ [bot] }] ∧
      bot.role = Role.model ∧ bot.isLoading = false ∧ bot.isPainting = false ∧
      bot.isDirecting = false := by
  obtain ⟨bot, h1, h2, _, _, _, h6, h7, h8, h9⟩ :=
    processGeneration_final st text images history botMsgId cfg videoData now gw
      u cid session hu hc hf
  exact ⟨bot, h1, h2, h6, h7, h8, h9⟩

/-- Witness for C6 at a concrete failing turn. -/
theorem C6_witness :
    ∃ bot : Message,
      (processGeneration wState "hi" [] [wUserMsg] "b1" wCfg none 3 wFailGw).sessions.find?
          (fun s => s.id == "s1") = some { wSession with messages := [wUserMsg] ++ [bot] } ∧
      (processGeneration wState "hi" [] [wUserMsg] "b1" wCfg none 3 wFailGw).writes
          = wState.writes ++ [{ wSession with messages := [wUserMsg] ++ [bot] }] ∧
      bot.role = Role.model ∧ bot.isLoading = false ∧ bot.isPainting = false ∧
      bot.isDirecting = false :=
  C6_failures_caught_and_turn_settled wState "hi" [] [wUserMsg] "b1" wCfg none 3 wFailGw
    "u1" "s1" wSession rfl rfl (by decide)

/-- The persistence shape of a whole streamed text turn: the write log grows
by exactly one entry, the full final session, whose model message has the
in-progress flag cleared and carries the accumulated content and last
grounding batch. -/
lemma processGeneration_text_persists (st : AppState) (text : String)
    (images : List String) (history : List Message) (botMsgId : String) (cfg : ChatConfig)
    (videoData : Option String) (now : Nat) (gw : GatewayBehavior)
    (u cid : String) (session : ChatSession) (ys : List YieldItem)
    (hu : st.user = some u) (hc : st.currentSessionId = some cid)
    (hf : st.sessions.find? (fun s => s.id == cid) = some session)
    (hkind : genKindOf cfg.model videoData = GenKind.text)
    (hok : streamChatYields gw.stream = Except.ok ys) :
    (processGeneration st text images history botMsgId cfg videoData now gw).writes
        = st.writes ++ [{ session with messages := history ++
            [{ id := botMsgId, role := Role.model, content := (foldYields ys).fullContent,
               timestamp := now, isLoading := false,
               groundingSources := (foldYields ys).groundingSources }] }] ∧
    (processGeneration st text images history botMsgId cfg videoData now gw).sessions.find?
        (fun s => s.id == cid)
        = some { session with messages := history ++
            [{ id := botMsgId, role := Role.model, content := (foldYields ys).fullContent,
               timestamp := now, isLoading := false,
               groundingSources := (foldYields ys).groundingSources }] } := by
  have hfold := (streamLoop_spec' botMsgId ys (setCurrentSessionMessages st (history ++
    [{ id := botMsgId, role := Role.model, content := "", timestamp := now,
       isLoading := true }]))).1
  have hpg : processGeneration st text images history botMsgId cfg videoData now gw
      = saveCurrentSession
          (streamLoop botMsgId (setCurrentSessionMessages st (history ++
            [{ id := botMsgId, role := Role.model, content := "", timestamp := now,
               isLoading := true }])) ys).1
          (history ++
            [{ id := botMsgId, role := Role.model,
               content := (streamLoop botMsgId (setCurrentSessionMessages st (history ++
                 [{ id := botMsgId, role := Role.model, content := "", timestamp := now,
                    isLoading := true }])) ys).2.fullContent,
               timestamp := now, isLoading := false,
               groundingSources := (streamLoop botMsgId (setCurrentSessionMessages st (history ++
                 [{ id := botMsgId, role := Role.model, content := "", timestamp := now,
                    isLoading := true }])) ys).2.groundingSources }]) none := by
    unfold processGeneration
    rw [hkind, hok]
  rw [hpg, hfold]
  exact ⟨(set_loop_save_spec st _ _ botMsgId ys u cid session hu hc hf).2.1,
    (set_loop_save_spec st _ _ botMsgId ys u cid session hu hc hf).1⟩

/-- C8: During a streamed text turn the incremental fragments update only the
in-memory session state: the backend write log grows by exactly one entry, the
full final session, written at stream completion, and the persisted model
message has its in-progress flag cleared and carries the full accumulated
content and the last grounding batch. -/
theorem C8_single_persist_at_stream_completion (st : AppState) (text : String)
    (images : List String) (history : List Message) (botMsgId : String) (cfg : ChatConfig)
    (videoData : Option String) (now : Nat) (gw : GatewayBehavior)
    (u cid : String) (session : ChatSession) (ys : List YieldItem)
    (hu : st.user = some u) (hc : st.currentSessionId = some cid)
    (hf : st.sessions.find? (fun s => s.id == cid) = some session)
    (hkind : genKindOf cfg.model videoData = GenKind.text)
    (hok : streamChatYields gw.stream = Except.ok ys) :
    (processGeneration st text images history botMsgId cfg videoData now gw).writes
        = st.writes ++ [{ session with messages := history ++
            [{ id := botMsgId, role := Role.model, content := (foldYields ys).fullContent,
               timestamp := now, isLoading := false,
               groundingSources := (foldYields ys).groundingSources }] }] ∧
    (processGeneration st text images history botMsgId cfg videoData now gw).sessions.find?
        (fun s => s.id == cid)
        = some { session with messages := history ++
            [{ id := botMsgId, role := Role.model, content := (foldYields ys).fullContent,
               timestamp := now, isLoading := false,
               groundingSources := (foldYields ys).groundingSources }] } :=
  processGeneration_text_persists st text images history botMsgId cfg videoData now gw
    u cid session ys hu hc hf hkind hok

/-- Witness for C8 at a concrete two-fragment stream. -/
theorem C8_witness :
    (processGeneration wState "hi" [] [wUserMsg] "b1" wCfg none 3 wOkGw).writes
        = wState.writes ++ [{ wSession with messages := [wUserMsg] ++
            [{ id := "b1", role := Role.model,
               content := (foldYields [YieldItem.text "Hello ", YieldItem.text "world"]).fullContent,
               timestamp := 3, isLoading := false,
               groundingSources :=
                 (foldYields [YieldItem.text "Hello ", YieldItem.text "world"]).groundingSources }] }] ∧
    (processGeneration wState "hi" [] [wUserMsg] "b1" wCfg none 3 wOkGw).sessions.find?
        (fun s => s.id == "s1")
        = some { wSession with messages := [wUserMsg] ++
            [{ id := "b1", role := Role.model,
               content := (foldYields [YieldItem.text "Hello ", YieldItem.text "world"]).fullContent,
               timestamp := 3, isLoading := false,
               groundingSources :=
                 (foldYields [YieldItem.text "Hello ", YieldItem.text "world"]).groundingSources }] } :=
  C8_single_persist_at_stream_completion wState "hi" [] [wUserMsg] "b1" wCfg none 3 wOkGw
    "u1" "s1" wSession [YieldItem.text "Hello ", YieldItem.text "world"]
    rfl rfl (by decide) (by decide) rfl

/-- C2: For every streamed text turn in which the safety-filter signal, when
present, is terminal (it rides the final chunk, which is how its source
sentence in the spec words it), the final persisted content of the model
message equals the concatenation, in yield order, of all text fragments
yielded by the stream, with the fixed safety-filter warning string appended
last exactly when a safety-filter signal occurred. -/
theorem C2_streamed_content_is_concatenation (st : AppState) (text : String)
    (images : List String) (history : List Message) (botMsgId : String) (cfg : ChatConfig)
    (videoData : Option String) (now : Nat) (gw : GatewayBehavior)
    (u cid : String) (session : ChatSession) (chunks : List StreamChunk)
    (hu : st.user = some u) (hc : st.currentSessionId = some cid)
    (hf : st.sessions.find? (fun s => s.id == cid) = some session)
    (hkind : genKindOf cfg.model videoData = GenKind.text)
    (hstream : gw.stream = { chunks := chunks, error := none })
    (hterm : ∀ c ∈ chunks.dropLast, chunkIsSafety c = false) :
    ∃ bot : Message,
      (processGeneration st text images history botMsgId cfg videoData now gw).writes
          = st.writes ++ [{ session with messages := history ++ [bot] }] ∧
      bot.content = concatChunkTexts chunks
          ++ (if chunks.any chunkIsSafety then safetyNotice else "") ∧
      bot.isLoading = false := by
  have hok : streamChatYields gw.stream = Except.ok ((chunks.map yieldsOfChunk).flatten) := by
    rw [hstream]
    rfl
  obtain ⟨hw, _⟩ := processGeneration_text_persists st text images history botMsgId cfg
    videoData now gw u cid session ((chunks.map yieldsOfChunk).flatten) hu hc hf hkind hok
  refine ⟨_, hw, ?_, rfl⟩
  show (foldYields ((chunks.map yieldsOfChunk).flatten)).fullContent = _
  rw [foldYields_fullContent, concatTexts_flatten_yields, concatRenders_terminal chunks hterm]

/-- Witness for C2 at a concrete stream whose last chunk carries both text and
the safety signal. -/
theorem C2_witness :
    ∃ bot : Message,
      (processGeneration wState "hi" [] [wUserMsg] "b1" wCfg none 3 wSafetyGw).writes
          = wState.writes ++ [{ wSession with messages := [wUserMsg] ++ [bot] }] ∧
      bot.content = concatChunkTexts wSafetyChunks
          ++ (if wSafetyChunks.any chunkIsSafety then safetyNotice else "") ∧
      bot.isLoading = false :=
  C2_streamed_content_is_concatenation wState "hi" [] [wUserMsg] "b1" wCfg none 3 wSafetyGw
    "u1" "s1" wSession wSafetyChunks
    rfl rfl (by decide) (by decide) rfl (by decide)

/-- C5: When the Gateway call of a streamed text turn raises a rate-limit
signal (status 429) before any fragment is delivered — and the error message
is not the missing-entity sentence that the code re-raises — the placeholder
model message is persisted with exactly the fixed rate-limit string as its
content and its in-progress flag cleared. -/
theorem C5_rate_limit_is_fixed_string (st : AppState) (text : String)
    (images : List String) (history : List Message) (botMsgId : String) (cfg : ChatConfig)
    (videoData : Option String) (now : Nat) (gw : GatewayBehavior)
    (u cid : String) (session : ChatSession) (e : GenError)
    (hu : st.user = some u) (hc : st.currentSessionId = some cid)
    (hf : st.sessions.find? (fun s => s.id == cid) = some session)
    (hkind : genKindOf cfg.model videoData = GenKind.text)
    (hstream : gw.stream = { chunks := [], error := some e })
    (hstatus : e.status = some 429)
    (hmsg : jsIncludes e.message "Requested entity was not found" = false) :
    ∃ bot : Message,
      (processGeneration st text images history botMsgId cfg videoData now gw).writes
          = st.writes ++ [{ session with messages := history ++ [bot] }] ∧
      bot.content = rateLimitNotice ∧
      bot.isLoading = false := by
  have hok : streamChatYields gw.stream = Except.ok [YieldItem.text rateLimitNotice] := by
    rw [hstream]
    unfold streamChatYields
    simp [hstatus, hmsg]
  obtain ⟨hw, _⟩ := processGeneration_text_persists st text images history botMsgId cfg
    videoData now gw u cid session [YieldItem.text rateLimitNotice] hu hc hf hkind hok
  exact ⟨_, hw, rfl, rfl⟩

/-- Witness for C5 at a concrete 429 failure. -/
theorem C5_witness :
    ∃ bot : Message,
      (processGeneration wState "hi" [] [wUserMsg] "b1" wCfg none 3 w429Gw).writes
          = wState.writes ++ [{ wSession with messages := [wUserMsg] ++ [bot] }] ∧
      bot.content = rateLimitNotice ∧
      bot.isLoading = false :=
  C5_rate_limit_is_fixed_string wState "hi" [] [wUserMsg] "b1" wCfg none 3 w429Gw
    "u1" "s1" wSession w429Error
    rfl rfl (by decide) (by decide) rfl rfl (by decide)

/-- Counterexample to C1 as stated: under the V1 edit handler (cited by the
claim), when the regeneration stream raises, the in-progress placeholder stays
in place and a separate fixed error reply is appended after it, so two model
messages follow the edited message rather than exactly one. -/
theorem C1_counterexample :
    (handleEditSaveV1 [wUserMsg] "m1" "hello" "b1" "e1" 5
        { chunks := [], error := some { message := "network down" } }).countP
      (fun m => m.role == Role.model) = 2 ∧
    handleEditSaveV1 [wUserMsg] "m1" "hello" "b1" "e1" 5
        { chunks := [], error := some { message := "network down" } }
      = [{ wUserMsg with content := "hello" },
         { id := "b1", role := Role.model, content := "", timestamp := 5, isLoading := true },
         errorReplyV1 "e1" 5] := by
  constructor
  · decide
  · decide

/-- C1 (amended): under the V2 edit handler the claim holds for every Gateway
outcome: after edit-and-regenerate the current session holds exactly the
pre-edit prefix of messages strictly before the edited message, then the
edited message with its new content, then exactly one newly generated model
message; nothing from the discarded suffix remains.  (Under the V1 handler
this shape holds only when regeneration raises no error; on an error the
placeholder plus a separate error reply follow the edited message.) -/
theorem C1_edit_truncates_and_regenerates (st : AppState) (messageId newContent : String)
    (botMsgId : String) (cfg : ChatConfig) (now : Nat) (gw : GatewayBehavior)
    (u cid : String) (session : ChatSession) (i : Nat) (oldMsg : Message)
    (hu : st.user = some u) (hc : st.currentSessionId = some cid)
    (hf : st.sessions.find? (fun s => s.id == cid) = some session)
    (hi : session.messages.findIdx? (fun m => m.id == messageId) = some i)
    (hm : session.messages[i]? = some oldMsg) :
    ∃ bot : Message,
      (handleEditMessage st messageId newContent botMsgId cfg now gw).sessions.find?
          (fun s => s.id == cid)
        = some { session with messages :=
            session.messages.take i ++ [{ oldMsg with content := newContent }] ++ [bot] } ∧
      bot.id = botMsgId ∧ bot.role = Role.model := by
  have hym : handleEditMessage st messageId newContent botMsgId cfg now gw
      = processGeneration
          (setCurrentSessionMessages
            (saveCurrentSession st (session.messages.take i ++ [{ oldMsg with content := newContent }]) none)
            (session.messages.take i ++ [{ oldMsg with content := newContent }]))
          newContent oldMsg.images
          (session.messages.take i ++ [{ oldMsg with content := newContent }]) botMsgId cfg
          (match oldMsg.videoUri with
           | some v => if v = "" ∨ v = "Attached Video" then none else some v
           | none => none)
          now gw := by
    unfold handleEditMessage
    rw [hu, hc]
    simp only [hf, hi, hm]
  obtain ⟨hfs, hws, hus, hcs, hds⟩ :=
    saveCurrentSession_final st (session.messages.take i ++ [{ oldMsg with content := newContent }])
      u cid session hu hc hf
  have hu1 : (saveCurrentSession st
      (session.messages.take i ++ [{ oldMsg with content := newContent }]) none).user = some u := by
    rw [hus, hu]
  have hc1 : (saveCurrentSession st
      (session.messages.take i ++ [{ oldMsg with content := newContent }]) none).currentSessionId
      = some cid := by
    rw [hcs, hc]
  obtain ⟨hfs2, hus2, hcs2, hws2, hds2⟩ :=
    setCurrentSessionMessages_spec
      (saveCurrentSession st (session.messages.take i ++ [{ oldMsg with content := newContent }]) none)
      (session.messages.take i ++ [{ oldMsg with content := newContent }]) cid
      { session with messages := session.messages.take i ++ [{ oldMsg with content := newContent }] }
      hc1 hfs
  have hu2 : (setCurrentSessionMessages
      (saveCurrentSession st (session.messages.take i ++ [{ oldMsg with content := newContent }]) none)
      (session.messages.take i ++ [{ oldMsg with content := newContent }])).user = some u := by
    rw [hus2, hu1]
  have hc2 : (setCurrentSessionMessages
      (saveCurrentSession st (session.messages.take i ++ [{ oldMsg with content := newContent }]) none)
      (session.messages.take i ++ [{ oldMsg with content := newContent }])).currentSessionId
      = some cid := by
    rw [hcs2, hc1]
  obtain ⟨bot, hb1, hb2, hb3, hb4, hb5, hb6, hb7, hb8, hb9⟩ :=
    processGeneration_final
      (setCurrentSessionMessages
        (saveCurrentSession st (session.messages.take i ++ [{ oldMsg with content := newContent }]) none)
        (session.messages.take i ++ [{ oldMsg with content := newContent }]))
      newContent oldMsg.images
      (session.messages.take i ++ [{ oldMsg with content := newContent }]) botMsgId cfg
      (match oldMsg.videoUri with
       | some v => if v = "" ∨ v = "Attached Video" then none else some v
       | none => none)
      now gw u cid
      { session with messages := session.messages.take i ++ [{ oldMsg with content := newContent }] }
      hu2 hc2 hfs2
  refine ⟨bot, ?_, hb5, hb6⟩
  rw [hym]
  exact hb1

/-- Witness for the amended C1 at a concrete edit of the first message of a
three-message session. -/
theorem C1_witness :
    ∃ bot : Message,
      (handleEditMessage wEditState "m1" "hello" "b9" wCfg 9 wOkGw).sessions.find?
          (fun s => s.id == "s2")
        = some { wEditSession with messages :=
            wEditSession.messages.take 0 ++ [{ wUserMsg with content := "hello" }] ++ [bot] } ∧
      bot.id = "b9" ∧ bot.role = Role.model :=
  C1_edit_truncates_and_regenerates wEditState "m1" "hello" "b9" wCfg 9 wOkGw
    "u1" "s2" wEditSession 0 wUserMsg rfl rfl (by decide) (by decide) (by decide)

/-- Renaming keeps the rest of the state intact and retitles the found
session when its id matches the rename target. -/
lemma renameSession_spec (st : AppState) (id t : String) (u : String)
    (hu : st.user = some u) (cid : String) (session : ChatSession)
    (hf : st.sessions.find? (fun s => s.id == cid) = some session) :
    (renameSession st id t).user = st.user ∧
    (renameSession st id t).currentSessionId = st.currentSessionId ∧
    (renameSession st id t).writes = st.writes ∧
    (renameSession st id t).deletes = st.deletes ∧
    (renameSession st id t).sessions.find? (fun s => s.id == cid)
      = some (if session.id == id then { session with title := t } else session) := by
  have hpres : ∀ s : ChatSession,
      ((fun s => if s.id == id then { s with title := t } else s) s).id = s.id := by
    intro s
    by_cases h : s.id = id
    · simp [h]
    · simp [h]
  have hre : renameSession st id t
      = { st with sessions := renameSessions st.sessions id t } := by
    unfold renameSession
    rw [hu]
  rw [hre]
  refine ⟨rfl, rfl, rfl, rfl, ?_⟩
  show (st.sessions.map _).find? _ = _
  rw [find?_map_of_id _ _ hpres, hf]
  rfl

/-- A generated title is never empty when the message text has content: the
30-character truncation of a non-empty string is non-empty. -/
lemma generateTitle_ne_empty (text : String) (h : ¬ jsTrim text = "") :
    ¬ generateTitle text = "" := by
  intro habs
  have htext : ¬ text = "" := by
    intro h0
    apply h
    rw [h0]
    rfl
  have hdata : (generateTitle text).data = [] := by rw [habs]
  have h2 : text.toList.take 30 ++ (if text.length > 30 then "..." else "").data = [] := hdata
  have h3 : text.toList.take 30 = [] := (List.append_eq_nil.mp h2).1
  have h4 : text.toList = [] := by
    rcases List.take_eq_nil_iff.mp h3 with h30 | hl
    · omega
    · exact hl
  apply htext
  cases text with
  | mk d =>
      have hd : d = [] := h4
      rw [hd]

/-- On a first send whose auto-title decision produced a title, the session
ends up carrying exactly that title. -/
lemma handleSendMessage_title (st : AppState) (text : String) (images : List String)
    (videoData : Option String) (userMsgId botMsgId : String) (cfg : ChatConfig) (now : Nat)
    (gw : GatewayBehavior) (u cid : String) (session : ChatSession) (t : String)
    (hu : st.user = some u) (hc : st.currentSessionId = some cid)
    (hf : st.sessions.find? (fun s => s.id == cid) = some session)
    (hempty : session.messages = [])
    (hauto : autoTitle true text images videoData = some t) :
    ∃ s2 : ChatSession,
      (handleSendMessage st text images videoData userMsgId botMsgId cfg now gw).sessions.find?
          (fun s => s.id == cid) = some s2 ∧ s2.title = t := by
  have hsid : session.id = cid := by
    have := List.find?_some hf
    simpa using this
  have hym : handleSendMessage st text images videoData userMsgId botMsgId cfg now gw
      = processGeneration
          (renameSession
            (saveCurrentSession st [sentUserMsg userMsgId text now images videoData] none)
            cid t)
          text images [sentUserMsg userMsgId text now images videoData]
          botMsgId cfg videoData now gw := by
    unfold handleSendMessage
    rw [hu, hc]
    simp only [hf, Option.map_some', Option.getD_some, hempty, List.nil_append,
      List.length_nil, decide_True, hauto]
  rw [hym]
  obtain ⟨hfs, hws, hus, hcs, hds⟩ :=
    saveCurrentSession_final st [sentUserMsg userMsgId text now images videoData]
      u cid session hu hc hf
  have hu1 : (saveCurrentSession st [sentUserMsg userMsgId text now images videoData] none).user
      = some u := by rw [hus, hu]
  have hc1 : (saveCurrentSession st
      [sentUserMsg userMsgId text now images videoData] none).currentSessionId
      = some cid := by rw [hcs, hc]
  obtain ⟨hur, hcr, hwr, hdr, hfr⟩ :=
    renameSession_spec
      (saveCurrentSession st [sentUserMsg userMsgId text now images videoData] none)
      cid t u hu1 cid _ hfs
  have hfr' : (renameSession
      (saveCurrentSession st [sentUserMsg userMsgId text now images videoData] none)
      cid t).sessions.find? (fun s => s.id == cid)
      = some { session with
               messages := [sentUserMsg userMsgId text now images videoData],
               title := t } := by
    rw [hfr]
    simp [hsid]
  have hu2 : (renameSession
      (saveCurrentSession st [sentUserMsg userMsgId text now images videoData] none)
      cid t).user = some u := by rw [hur, hu1]
  have hc2 : (renameSession
      (saveCurrentSession st [sentUserMsg userMsgId text now images videoData] none)
      cid t).currentSessionId = some cid := by rw [hcr, hc1]
  obtain ⟨bot, hb1, hb2, hb3, hb4, hb5, hb6, hb7, hb8, hb9⟩ :=
    processGeneration_final
      (renameSession
        (saveCurrentSession st [sentUserMsg userMsgId text now images videoData] none)
        cid t)
      text images [sentUserMsg userMsgId text now images videoData]
      botMsgId cfg videoData now gw u cid _ hu2 hc2 hfr'
  exact ⟨_, hb1, rfl⟩

/-- An attachment-only user message fixture. -/
def wImgOnlyMsg : Message :=
  { id := "m1", role := Role.user, content := "", timestamp := 1,
    images := ["data:image/jpeg;base64,AAAA"] }

/-- Counterexample to C7 as stated: in the V1 app (whose title derivation the
claim cites), a first send with an image attachment but no text derives the
title from the empty message text, leaving an empty session title rather than
a non-empty fixed label. -/
theorem C7_counterexample :
    (updateCurrentSessionMessagesV1 [wSession] (some "s1")
        (fun ms => ms ++ [wImgOnlyMsg])).map (fun s => s.title) = [""] := by
  decide

/-- C7 (amended): in the V2 send path, sending the first message of an empty
session always renames it, to a non-empty title: the title generated from the
message text when trimmed text is present (spec-modelled generateTitle, a
30-character truncation, which therefore can coincide with a default string
exactly when the text does), or the fixed label Image Analysis or Video
Analysis for attachment-only turns.  (In the V1 path the title is the same
truncation of the first user message and is empty for attachment-only
sends.) -/
theorem C7_first_send_renames_session (st : AppState) (text : String) (images : List String)
    (videoData : Option String) (userMsgId botMsgId : String) (cfg : ChatConfig) (now : Nat)
    (gw : GatewayBehavior) (u cid : String) (session : ChatSession)
    (hu : st.user = some u) (hc : st.currentSessionId = some cid)
    (hf : st.sessions.find? (fun s => s.id == cid) = some session)
    (hempty : session.messages = [])
    (hguard : canSend text images videoData = true) :
    ∃ t : String, ∃ s2 : ChatSession,
      (handleSendMessage st text images videoData userMsgId botMsgId cfg now gw).sessions.find?
          (fun s => s.id == cid) = some s2 ∧
      s2.title = t ∧ ¬ t = "" ∧
      (t = generateTitle text ∨ t = "Image Analysis" ∨ t = "Video Analysis") := by
  by_cases htrim : jsTrim text = ""
  · by_cases himg : images = []
    · have hvid : videoData.isSome = true := by
        unfold canSend at hguard
        simp [htrim, himg] at hguard
        cases hv : videoData with
        | none => rw [hv] at hguard; simp at hguard
        | some v => rfl
      have hauto : autoTitle true text images videoData = some "Video Analysis" := by
        unfold autoTitle
        simp [htrim, himg, hvid]
      obtain ⟨s2, h1, h2⟩ := handleSendMessage_title st text images videoData userMsgId botMsgId
        cfg now gw u cid session "Video Analysis" hu hc hf hempty hauto
      exact ⟨"Video Analysis", s2, h1, h2, by decide, Or.inr (Or.inr rfl)⟩
    · have hauto : autoTitle true text images videoData = some "Image Analysis" := by
        unfold autoTitle
        simp [htrim, himg]
      obtain ⟨s2, h1, h2⟩ := handleSendMessage_title st text images videoData userMsgId botMsgId
        cfg now gw u cid session "Image Analysis" hu hc hf hempty hauto
      exact ⟨"Image Analysis", s2, h1, h2, by decide, Or.inr (Or.inl rfl)⟩
  · have hauto : autoTitle true text images videoData = some (generateTitle text) := by
      unfold autoTitle
      simp [htrim]
    obtain ⟨s2, h1, h2⟩ := handleSendMessage_title st text images videoData userMsgId botMsgId
      cfg now gw u cid session (generateTitle text) hu hc hf hempty hauto
    exact ⟨generateTitle text, s2, h1, h2, generateTitle_ne_empty text htrim, Or.inl rfl⟩

/-- Witness for the amended C7 at a concrete first text send. -/
theorem C7_witness :
    ∃ t : String, ∃ s2 : ChatSession,
      (handleSendMessage wState "hi" [] none "m7" "b7" wCfg 4 wOkGw).sessions.find?
          (fun s => s.id == "s1") = some s2 ∧
      s2.title = t ∧ ¬ t = "" ∧
      (t = generateTitle "hi" ∨ t = "Image Analysis" ∨ t = "Video Analysis") :=
  C7_first_send_renames_session wState "hi" [] none "m7" "b7" wCfg 4 wOkGw
    "u1" "s1" wSession rfl rfl (by decide) (by decide) (by decide)

/-- In a list sorted by ascending creation time, the last element is the most
recently created one. -/
lemma pairwise_createdAt_getLast (l : List ChatSession) (last : ChatSession)
    (h : l.Pairwise (fun a b => a.createdAt ≤ b.createdAt))
    (hl : l.getLast? = some last) : ∀ s ∈ l, s.createdAt ≤ last.createdAt := by
  induction l with
  | nil => cases hl
  | cons a tl ih =>
      cases tl with
      | nil =>
          have ha : a = last := by simpa using hl
          intro s hs
          have hsa : s = a := by simpa using hs
          rw [hsa, ha]
      | cons b tl2 =>
          have hl' : (b :: tl2).getLast? = some last := by
            simpa [List.getLast?_cons_cons] using hl
          have hx : last ∈ (b :: tl2).getLast? := by simp [Option.mem_def, hl']
          obtain ⟨hne, heq⟩ := List.mem_getLast?_eq_getLast hx
          have hmem : last ∈ b :: tl2 := heq ▸ List.getLast_mem hne
          rw [List.pairwise_cons] at h
          intro s hs
          rcases List.mem_cons.mp hs with hsa | hs2
          · rw [hsa]; exact h.1 last hmem
          · exact ih h.2 hl' s hs2

/-- A last-chat session fixture. -/
def wOnlySession : ChatSession :=
  { id := "only", title := "Last Chat", messages := [], createdAt := 42 }

/-- An app state whose only session is active. -/
def wOnlyState : AppState :=
  { user := some "alice", sessions := [wOnlySession], currentSessionId := some "only" }

/-- A sole-session fixture for the delete counterexamples. -/
def wSoloSession : ChatSession := { id := "z1", title := "Sole", messages := [], createdAt := 7 }

/-- An app state around the sole session. -/
def wSoloState : AppState :=
  { user := some "bob", sessions := [wSoloSession], currentSessionId := some "z1" }

/-- Counterexample to C3 as stated: the V2 delete handler, applied to the last
remaining session, leaves the in-memory session store empty (no replacement is
synthesized until a later change-feed notification, which the local-storage
mode never sends again). -/
theorem C3_counterexample :
    (deleteSessionV2 wOnlyState "only").sessions = [] := by decide

/-- C3 (amended): after initialization the store is kept non-empty by the
change-feed handler (a notification reporting zero sessions synthesizes one)
and by the V1 delete handler (when the active session is one of the listed
sessions); the V2 delete handler, however, can leave the store empty when the
last session is deleted. -/
theorem C3_nonempty_after_feed_and_v1_delete :
    (∀ (st : AppState) (loaded : List ChatSession) (now : Nat), st.user.isSome = true →
        (onSessionsSnapshot st loaded now).sessions ≠ []) ∧
    (∀ (sessions : List ChatSession) (c id : String) (now : Nat),
        c ∈ sessions.map (fun s => s.id) →
        (deleteSessionV1 sessions (some c) id now).1 ≠ []) := by
  constructor
  · intro st loaded now huser
    cases hu : st.user with
    | none => rw [hu] at huser; simp at huser
    | some uu =>
        by_cases hl : loaded.isEmpty
        · have he : onSessionsSnapshot st loaded now
              = { st with
                  sessions := [newCosmicSession now],
                  writes := st.writes ++ [newCosmicSession now],
                  currentSessionId := some (newCosmicSession now).id } := by
            unfold onSessionsSnapshot
            rw [hu]
            simp [hl]
          rw [he]
          simp
        · have hln : loaded ≠ [] := by
            intro habs
            rw [habs] at hl
            exact hl rfl
          have he : onSessionsSnapshot st loaded now
              = { st with
                  sessions := loaded,
                  currentSessionId :=
                    if st.currentSessionId = none then loaded.getLast?.map (fun s => s.id)
                    else st.currentSessionId } := by
            unfold onSessionsSnapshot
            rw [hu]
            simp [hl]
          rw [he]
          simpa using hln
  · intro sessions c id now hc
    unfold deleteSessionV1
    by_cases hci : c = id
    · subst hci
      rw [if_pos rfl]
      cases hl : (sessions.filter (fun s => s.id != c)).getLast? with
      | some last =>
          intro habs
          simp only at habs
          rw [habs] at hl
          simp at hl
      | none => simp
    · have hne : ¬ (some c = some id) := by simp [hci]
      simp only [if_neg hne]
      obtain ⟨s, hs, hsid⟩ := List.mem_map.mp hc
      have hmem : s ∈ sessions.filter (fun x => x.id != id) := by
        rw [List.mem_filter]
        exact ⟨hs, by simp [hsid, hci]⟩
      exact List.ne_nil_of_mem hmem

/-- Witness for the amended C3 at a concrete empty feed notification and a
concrete V1 delete of the active session. -/
theorem C3_witness :
    ((onSessionsSnapshot wOnlyState [] 99).sessions ≠ []) ∧
    ((deleteSessionV1 [wOnlySession] (some "only") "only" 99).1 ≠ []) :=
  ⟨C3_nonempty_after_feed_and_v1_delete.1 wOnlyState [] 99 (by decide),
   C3_nonempty_after_feed_and_v1_delete.2 [wOnlySession] "only" "only" 99 (by decide)⟩

/-- Counterexample to C4 as stated: when the V2 delete handler removes the
active session and no sessions remain, no fresh session is created and no
session becomes active. -/
theorem C4_counterexample :
    (deleteSessionV2 wSoloState "z1").sessions.length = 0 ∧
    (deleteSessionV2 wSoloState "z1").currentSessionId = none := by decide

/-- C4 (amended): for the V1 delete handler, with the session list ordered by
ascending creation time (the order its create and append operations maintain):
deleting the active session activates the last remaining session, which is the
most recently created remaining one; when none remain, exactly one fresh empty
session is created and becomes active.  (The V2 handler likewise activates the
last remaining session but, when none remain, clears the active session and
creates nothing.) -/
theorem C4_delete_activates_most_recent (sessions : List ChatSession) (id : String) (now : Nat)
    (hsorted : sessions.Pairwise (fun a b => a.createdAt ≤ b.createdAt)) :
    (∀ last, (sessions.filter (fun s => s.id != id)).getLast? = some last →
        (deleteSessionV1 sessions (some id) id now).2 = some last.id ∧
        (deleteSessionV1 sessions (some id) id now).1 = sessions.filter (fun s => s.id != id) ∧
        ∀ s ∈ sessions.filter (fun s => s.id != id), s.createdAt ≤ last.createdAt) ∧
    ((sessions.filter (fun s => s.id != id)).getLast? = none →
        (deleteSessionV1 sessions (some id) id now).1 = [freshSessionV1 now] ∧
        (freshSessionV1 now).messages = [] ∧
        (deleteSessionV1 sessions (some id) id now).2 = some (freshSessionV1 now).id) := by
  constructor
  · intro last hlast
    have hd : deleteSessionV1 sessions (some id) id now
        = (sessions.filter (fun s => s.id != id), some last.id) := by
      unfold deleteSessionV1
      simp [hlast]
    have hp : (sessions.filter (fun s => s.id != id)).Pairwise
        (fun a b => a.createdAt ≤ b.createdAt) :=
      hsorted.sublist (List.filter_sublist sessions)
    exact ⟨by rw [hd], by rw [hd], pairwise_createdAt_getLast _ last hp hlast⟩
  · intro hnone
    have hd : deleteSessionV1 sessions (some id) id now
        = (sessions.filter (fun s => s.id != id) ++ [freshSessionV1 now],
           some (freshSessionV1 now).id) := by
      unfold deleteSessionV1
      simp [hnone]
    have hnil : sessions.filter (fun s => s.id != id) = [] := by
      rwa [List.getLast?_eq_none_iff] at hnone
    refine ⟨?_, rfl, by rw [hd]⟩
    rw [hd, hnil]
    rfl

/-- An older-session fixture. -/
def wOldSession : ChatSession := { id := "a", title := "A", messages := [], createdAt := 1 }

/-- A newer-session fixture. -/
def wNewSession : ChatSession := { id := "b", title := "B", messages := [], createdAt := 2 }

/-- Witness for the amended C4 on a concrete sorted three-session list. -/
theorem C4_witness :
    (∀ last, (([wOldSession, wNewSession, wSoloSession] :
          List ChatSession).filter (fun s => s.id != "z1")).getLast? = some last →
        (deleteSessionV1 [wOldSession, wNewSession, wSoloSession] (some "z1") "z1" 99).2
            = some last.id ∧
        (deleteSessionV1 [wOldSession, wNewSession, wSoloSession] (some "z1") "z1" 99).1
            = ([wOldSession, wNewSession, wSoloSession] :
                List ChatSession).filter (fun s => s.id != "z1") ∧
        ∀ s ∈ ([wOldSession, wNewSession, wSoloSession] :
            List ChatSession).filter (fun s => s.id != "z1"),
          s.createdAt ≤ last.createdAt) ∧
    ((([wOldSession, wNewSession, wSoloSession] :
          List ChatSession).filter (fun s => s.id != "z1")).getLast? = none →
        (deleteSessionV1 [wOldSession, wNewSession, wSoloSession] (some "z1") "z1" 99).1
            = [freshSessionV1 99] ∧
        (freshSessionV1 99).messages = [] ∧
        (deleteSessionV1 [wOldSession, wNewSession, wSoloSession] (some "z1") "z1" 99).2
            = some (freshSessionV1 99).id) :=
  C4_delete_activates_most_recent [wOldSession, wNewSession, wSoloSession] "z1" 99 (by decide)

/-- A system-role message fixture. -/
def wSysMsg : Message := { id := "sys", role := Role.system, content := "inst", timestamp := 0 }

/-- An in-progress model message fixture. -/
def wLoadingMsg : Message :=
  { id := "ld", role := Role.model, content := "", timestamp := 1, isLoading := true }

/-- Counterexample to C9 as stated: for a single-turn-only model (here an
image model, which reaches the streamed-chat call when a video attachment is
present), the transmitted contents drop the history entirely instead of being
the filtered history followed by the new turn. -/
theorem C9_counterexample :
    contentsOf [wUserMsg] "analyze" [] { model := "gemini-3-pro-image-preview" }
        (some "data:video/mp4;base64,AAAA")
      ≠ claimedContents [wUserMsg] "analyze" [] (some "data:video/mp4;base64,AAAA") := by
  decide

/-- C9 (amended): for every history passed to the streamed-chat operation with
a multi-turn model (model id containing neither tts nor image), the request
contents are exactly the input history with system-role and in-progress
messages filtered out, in original order, followed by the new user turn; and
for every model the transmitted entries carry only the user or model role
(never system, and in the single-turn case no history entry at all). -/
theorem C9_transmitted_history_filtered (history : List Message) (newMessage : String)
    (images : List String) (cfg : ChatConfig) (videoData : Option String)
    (hmulti : isSingleTurnOnly cfg.model = false) :
    contentsOf history newMessage images cfg videoData
        = claimedContents history newMessage images videoData ∧
    ∀ c ∈ contentsOf history newMessage images cfg videoData,
      c.role = "user" ∨ c.role = "model" := by
  constructor
  · unfold contentsOf claimedContents
    simp [hmulti]
  · intro c hcm
    have hcm' : c ∈ chatHistoryOf history ++
        [{ role := "user", parts := currentPartsOf newMessage images videoData }] := by
      unfold contentsOf at hcm
      simpa [hmulti] using hcm
    rcases List.mem_append.mp hcm' with hmem | hmem
    · unfold chatHistoryOf at hmem
      obtain ⟨m, hm, hc⟩ := List.mem_map.mp hmem
      rw [← hc]
      unfold msgToContent
      by_cases hr : m.role = Role.user
      · left; simp [hr]
      · right; simp [hr]
    · left
      have hceq : c = { role := "user", parts := currentPartsOf newMessage images videoData } := by
        simpa using hmem
      rw [hceq]

/-- Witness for the amended C9 on a history holding a system message, an
in-progress message and a settled user message. -/
theorem C9_witness :
    (contentsOf [wSysMsg, wLoadingMsg, wUserMsg] "next" [] wCfg none
        = claimedContents [wSysMsg, wLoadingMsg, wUserMsg] "next" [] none) ∧
    (∀ c ∈ contentsOf [wSysMsg, wLoadingMsg, wUserMsg] "next" [] wCfg none,
        c.role = "user" ∨ c.role = "model") :=
  C9_transmitted_history_filtered [wSysMsg, wLoadingMsg, wUserMsg] "next" [] wCfg none
    (by decide)

/-- C10: renaming a session changes only the title of the sessions carrying
the target identifier — their identifier, messages and creation timestamp are
untouched, every other session is untouched — and when no session carries the
identifier the list is unchanged. -/
theorem C10_rename_touches_only_title (l : List ChatSession) (id t : String) :
    List.Forall₂ (fun s s2 => s2.id = s.id ∧ s2.messages = s.messages ∧
        s2.createdAt = s.createdAt ∧ s2.title = (if s.id = id then t else s.title))
      l (renameSessions l id t) ∧
    ((∀ s ∈ l, ¬ s.id = id) → renameSessions l id t = l) := by
  constructor
  · induction l with
    | nil => exact List.Forall₂.nil
    | cons a tl ih =>
        refine List.Forall₂.cons ?_ ih
        by_cases h : a.id = id
        · simp [h]
        · simp [h]
  · intro hnone
    induction l with
    | nil => rfl
    | cons a tl ih =>
        have ha : ¬ a.id = id := hnone a (by simp)
        have ht : ∀ s ∈ tl, ¬ s.id = id := fun s hs => hnone s (by simp [hs])
        unfold renameSessions at ih ⊢
        rw [List.map_cons]
        have hstep := ih ht
        simp only [hstep]
        simp [ha]

/-- Witness for C10 on a concrete two-session list. -/
theorem C10_witness :
    List.Forall₂ (fun s s2 => s2.id = s.id ∧ s2.messages = s.messages ∧
        s2.createdAt = s.createdAt ∧ s2.title = (if s.id = "a" then "Renamed" else s.title))
      [wOldSession, wNewSession] (renameSessions [wOldSession, wNewSession] "a" "Renamed") ∧
    ((∀ s ∈ [wOldSession, wNewSession], ¬ s.id = "a") →
        renameSessions [wOldSession, wNewSession] "a" "Renamed" = [wOldSession, wNewSession]) :=
  C10_rename_touches_only_title [wOldSession, wNewSession] "a" "Renamed"

end Neby
